import Mathlib

/-!
Verification development for the Leshan LwM2M Home Assistant client.

Shallow embedding of the client's observation and polling engine:
the value codec (`lwm2m_resource_value.py`), the transport
(`LeshanClient.request`), the directory (`LeshanClient.get_clients`),
the notification listener (`LeshanClient._listen_endpoint_notifications`),
the subscription registry (`LeshanClient.observe` / `cancel_observe`),
and the polling coordinator (`LeshanLwm2mCoordinator.async_update_data`).

Python exceptions are modelled by `Except`; Python dict/list state is
modelled by explicit Lean lists threaded through the functions.
-/

/-- Python exception classes relevant to the client, with the subclass facts
the `except` clauses depend on: `json.JSONDecodeError` is a subclass of
`ValueError` (and of no `aiohttp` or Leshan class); the enum lookup in
`Lwm2mResourceValueType(...)` raises `ValueError`;
`LeshanClientConnectionError` and its subclass
`LeshanClientConnectionTimeoutError` derive from `LeshanClientError`
(`exceptions.py`). -/
inductive PyExc
  | timeoutError
  | aiohttpClientError
  | leshanClientError
  | leshanClientConnectionError
  | leshanClientConnectionTimeoutError
  | jsonDecodeError
  | valueError
  deriving DecidableEq, Repr

/-- `isinstance(e, TimeoutError)`. -/
def PyExc.isTimeoutError : PyExc → Bool
  | .timeoutError => true
  | _ => false

/-- `isinstance(e, aiohttp.ClientError)`. -/
def PyExc.isAiohttpClientError : PyExc → Bool
  | .aiohttpClientError => true
  | _ => false

/-- `isinstance(e, LeshanClientError)`: `exceptions.py` makes the connection
and connection-timeout errors subclasses of `LeshanClientError`. -/
def PyExc.isLeshanClientError : PyExc → Bool
  | .leshanClientError => true
  | .leshanClientConnectionError => true
  | .leshanClientConnectionTimeoutError => true
  | _ => false

/-- A JSON wire value as it arrives in a read/notification payload:
the `value` field of the server's resource representation. -/
inductive WireVal
  | str (s : String)
  | int (n : Int)
  | bool (b : Bool)
  deriving DecidableEq, Repr

/-- The kinds of `Lwm2mResourceValueType` (`StrEnum` with `auto()`), whose
string values are the lowercased member names; note the last member is
`OBJLNK`, i.e. the string "objlnk". -/
inductive Lwm2mResourceValueType
  | string
  | integer
  | float
  | boolean
  | opaque_
  | time
  | objlnk
  deriving DecidableEq, Repr

/-- The string value of each enum member (`auto()` on a `StrEnum` yields the
lowercased member name). -/
def Lwm2mResourceValueType.strValue : Lwm2mResourceValueType → String
  | .string => "string"
  | .integer => "integer"
  | .float => "float"
  | .boolean => "boolean"
  | .opaque_ => "opaque"
  | .time => "time"
  | .objlnk => "objlnk"

/-- Python `str.lower()` on the ASCII kind strings of this wire protocol:
lowercase every character. -/
def pyLower (s : String) : String := ⟨s.data.map Char.toLower⟩

/-- `Lwm2mResourceValueType(s)`: enum lookup by value; raises `ValueError`
when `s` matches no member's string value. -/
def Lwm2mResourceValueType.lookup (s : String) : Except PyExc Lwm2mResourceValueType :=
  if s = "string" then .ok .string
  else if s = "integer" then .ok .integer
  else if s = "float" then .ok .float
  else if s = "boolean" then .ok .boolean
  else if s = "opaque" then .ok .opaque_
  else if s = "time" then .ok .time
  else if s = "objlnk" then .ok .objlnk
  else .error .valueError

/-- Python `int(x)` on the wire values we model: parses a (possibly signed,
whitespace-trimmed) decimal string, passes integers through, and maps
booleans to 0/1; raises `ValueError` on a non-numeric string. -/
def pyInt : WireVal → Except PyExc Int
  | .int n => .ok n
  | .bool b => .ok (if b then 1 else 0)
  | .str s =>
    let t := ((s.data.dropWhile Char.isWhitespace).reverse.dropWhile
      Char.isWhitespace).reverse
    let neg := t.head? = some '-'
    let core := if t.head? = some '-' ∨ t.head? = some '+' then t.drop 1 else t
    if !core.isEmpty && core.all Char.isDigit then
      let mag : Int := core.foldl (fun acc c => acc * 10 + (c.toNat - 48 : Int)) 0
      .ok (if neg then -mag else mag)
    else .error .valueError

/-- Python `bool(x)` truthiness on the wire values we model: a string is
truthy iff non-empty, an integer iff non-zero, a boolean is itself. -/
def pyBool : WireVal → Bool
  | .str s => !s.data.isEmpty
  | .int n => n != 0
  | .bool b => b

/-- Whether a trimmed string is a decimal numeral Python's `float()` accepts
(digits with at most one dot and an optional sign); exponents and special
forms are outside the data this client exchanges. -/
def pyFloatAccepts (s : String) : Bool :=
  let t := ((s.data.dropWhile Char.isWhitespace).reverse.dropWhile
    Char.isWhitespace).reverse
  let core := if t.head? = some '-' ∨ t.head? = some '+' then t.drop 1 else t
  !core.isEmpty &&
    core.all (fun c => c.isDigit || c = '.') &&
    (core.count '.') ≤ 1 &&
    core.any Char.isDigit

/-- The coerced value stored in a `Lwm2mResourceValue` after
`__post_init__`. Binary floating point is out of the model's scope, so the
`float` case records the wire value the Python `float()` call converted. -/
inductive DecVal
  | str (s : String)
  | int (n : Int)
  | bool (b : Bool)
  | float (src : WireVal)
  | raw (v : WireVal)
  deriving DecidableEq, Repr

/-- Python `float(x)` on the modelled wire values, kept symbolic: succeeds on
integers, booleans and numeral strings, raises `ValueError` on other
strings. -/
def pyFloat : WireVal → Except PyExc DecVal
  | .int n => .ok (.float (.int n))
  | .bool b => .ok (.float (.bool b))
  | .str s => if pyFloatAccepts s then .ok (.float (.str s)) else .error .valueError

/-- The `Lwm2mResourceValue` dataclass after `__post_init__` has run. -/
structure Lwm2mResourceValue where
  resource_id : Int
  type : Lwm2mResourceValueType
  value : DecVal
  deriving DecidableEq, Repr

/-- `Lwm2mResourceValue(resource_id, type, value)` with `__post_init__`
(`lwm2m_resource_value.py` lines 23-30): the kind string is lowercased and
looked up in the enum (raising `ValueError` if absent), then the value is
coerced: integer kind via `int(...)`, float kind via `float(...)`, boolean
kind via `bool(...)` truthiness, and every other kind passes the wire value
through unchanged. -/
def mkLwm2mResourceValue (resource_id : Int) (kind : String) (v : WireVal) :
    Except PyExc Lwm2mResourceValue := do
  let t ← Lwm2mResourceValueType.lookup (pyLower kind)
  match t with
  | .integer => do
    let n ← pyInt v
    .ok ⟨resource_id, t, .int n⟩
  | .float => do
    let f ← pyFloat v
    .ok ⟨resource_id, t, f⟩
  | .boolean => .ok ⟨resource_id, t, .bool (pyBool v)⟩
  | _ => .ok ⟨resource_id, t, .raw v⟩

/-- A decoded JSON body as the transport hands it to callers (Python dict /
list / scalar), only as deep as the claims need. -/
inductive PyJson
  | str (s : String)
  | int (n : Int)
  | bool (b : Bool)
  | obj (fields : List (String × PyJson))
  | arr (items : List PyJson)

/-- What the single HTTP attempt inside `LeshanClient.request` produced:
a response (with status, Content-Type header, the body's JSON decoding and
its raw text), an `asyncio.timeout` expiry (`TimeoutError`), or an
`aiohttp.ClientConnectionError`. -/
inductive TransportOutcome
  | response (status : Nat) (content_type : String) (json_body : PyJson) (text_body : String)
  | timeout
  | connectionError

/-- The exceptions `LeshanClient.request` raises, carrying what the source
attaches: `LeshanClientError(status, content)` for HTTP error statuses,
and message-carrying connection / connection-timeout errors. -/
inductive RequestError
  | leshanClientError (status : Nat) (content : PyJson)
  | connectionTimeoutError (message : String)
  | connectionError (message : String)

/-- `LeshanClient.request` (`leshan_client.py` lines 353-417) for one
attempt with outcome `o` against host `host`: statuses in [400, 600) raise
`LeshanClientError` carrying the status and either the JSON-decoded body
(when Content-Type is application/json) or the raw text wrapped in a
one-field message dict; a timeout raises
`LeshanClientConnectionTimeoutError`; a connection failure raises
`LeshanClientConnectionError`; any other status returns the JSON body, or
the text wrapped in a one-field data dict. -/
def LeshanClient.request (host : String) (o : TransportOutcome) :
    Except RequestError PyJson :=
  match o with
  | .timeout =>
    .error (.connectionTimeoutError ("Timeout connecting to server at " ++ host))
  | .connectionError =>
    .error (.connectionError ("Error connecting to server at " ++ host))
  | .response status content_type json_body text_body =>
    if 400 ≤ status ∧ status < 600 then
      if content_type = "application/json" then
        .error (.leshanClientError status json_body)
      else
        .error (.leshanClientError status (.obj [("message", .str text_body)]))
    else
      if content_type = "application/json" then .ok json_body
      else .ok (.obj [("data", .str text_body)])

/-- The `Lwm2mObjectInstance` dataclass: an (object-id, instance-id) pair,
equal when both ids are equal. -/
structure Lwm2mObjectInstance where
  object_id : Int
  instance_id : Int
  deriving DecidableEq, Repr

/-- The `Lwm2mClient` dataclass after `__post_init__` flattened the
registration payload's object-instance mapping; `__eq__` compares endpoint
names only, so the remaining registration fields are summarised by
`registration_id` (enough to tell two records for one endpoint apart). -/
structure Lwm2mClient where
  endpoint : String
  registration_id : String
  object_instances : List Lwm2mObjectInstance
  deriving DecidableEq, Repr

/-- `Lwm2mClient.__eq__` (`lwm2m_client.py` lines 55-57): endpoint-only
equality. -/
def Lwm2mClient.pyEq (a b : Lwm2mClient) : Bool :=
  a.endpoint == b.endpoint

/-- A server listing / registration entry as `get_clients` consumes it:
the endpoint, the registration id, and `availableInstances` as a mapping
from object-id to the list of instance-ids. -/
structure Lwm2mClientData where
  endpoint : String
  registration_id : String
  availableInstances : List (Int × List Int)
  deriving DecidableEq, Repr

/-- `Lwm2mClient(...)` construction with `__post_init__`
(`lwm2m_client.py` lines 45-53): the object-id → instance-ids mapping is
flattened into `Lwm2mObjectInstance` pairs in iteration order. -/
def mkLwm2mClient (d : Lwm2mClientData) : Lwm2mClient :=
  { endpoint := d.endpoint
    registration_id := d.registration_id
    object_instances :=
      d.availableInstances.flatMap fun p =>
        p.2.map fun instance_id => ⟨p.1, instance_id⟩ }

/-- One iteration of the `get_clients` merge loop (`leshan_client.py`
lines 231-251): decode the entry; if some already-known client has the same
endpoint, keep the registry as is (first-seen wins), otherwise append the
new client to `self.lwm2m_clients` and to the local `clients` list of newly
seen entries. The pair is (`self.lwm2m_clients`, local `clients`). -/
def getClientsStep (acc : List Lwm2mClient × List Lwm2mClient) (d : Lwm2mClientData) :
    List Lwm2mClient × List Lwm2mClient :=
  let c := mkLwm2mClient d
  if acc.1.any fun e => e.endpoint == c.endpoint then acc
  else (acc.1 ++ [c], acc.2 ++ [c])

/-- `LeshanClient.get_clients` (`leshan_client.py` lines 215-253) on a
successfully fetched listing: merges every entry into the registry and
returns the pair (new registry state, the method's return value) — the
method returns `self.lwm2m_clients`, the full registry, not the local list
of newly seen clients. -/
def LeshanClient.get_clients (listing : List Lwm2mClientData)
    (lwm2m_clients : List Lwm2mClient) : List Lwm2mClient × List Lwm2mClient :=
  let acc := listing.foldl getClientsStep (lwm2m_clients, [])
  (acc.1, acc.1)

/-- `LeshanClient.read`'s request path (`leshan_client.py` lines 279-285):
endpoint, object id and instance id are always appended; the resource
segment is appended under `if resource_id:`, Python truthiness, so it is
omitted both for `None` and for `0`. -/
def LeshanClient.readPath (endpoint : String) (object_instance : Lwm2mObjectInstance)
    (resource_id : Option Int) : String :=
  let path := "api/clients" ++ "/" ++ endpoint
    ++ "/" ++ toString object_instance.object_id
    ++ "/" ++ toString object_instance.instance_id
  match resource_id with
  | none => path
  | some r => if r != 0 then path ++ "/" ++ toString r else path

/-- The `ObservationEntry` dataclass (`leshan_client.py` lines 30-46): the
client, instance and resource under observation plus the callback; the
callback (a Python function object) is modelled by an identity token, so
two registrations of different callbacks are distinguishable. -/
structure ObservationEntry where
  client : Lwm2mClient
  instance_ : Lwm2mObjectInstance
  resource_id : Int
  callback : Nat
  deriving DecidableEq, Repr

/-- Dataclass equality on `ObservationEntry`: fieldwise, with the client
compared by `Lwm2mClient.__eq__` (endpoint only) and the callback by
function identity. -/
def ObservationEntry.pyEq (a b : ObservationEntry) : Bool :=
  a.client.pyEq b.client && a.instance_ == b.instance_ &&
    a.resource_id == b.resource_id && a.callback == b.callback

/-- The match test of the notification delivery loop (`leshan_client.py`
lines 127-133): the observation fires iff its endpoint, object id,
instance id and resource id all equal the notification's — an exact
4-tuple match. -/
def notifMatches (ep : String) (object_id instance_id resource_id : Int)
    (o : ObservationEntry) : Bool :=
  o.client.endpoint == ep && o.instance_.object_id == object_id &&
    o.instance_.instance_id == instance_id && o.resource_id == resource_id

/-- One callback invocation performed by the delivery loop: which callback
ran, and the client / instance / decoded value it was awaited with. -/
structure CallbackCall where
  callback : Nat
  client : Lwm2mClient
  instance_ : Lwm2mObjectInstance
  value : Lwm2mResourceValue
  deriving DecidableEq, Repr

/-- The delivery loop of `_listen_endpoint_notifications` (`leshan_client.py`
lines 127-136) for one notification: walk `self._observations` in order and
await the callback of every entry whose 4-tuple matches, passing the
entry's client and instance and the decoded value. Returns the sequence of
callback invocations in the order they are awaited. -/
def deliverNotification (observations : List ObservationEntry) (ep : String)
    (object_id instance_id resource_id : Int) (value : Lwm2mResourceValue) :
    List CallbackCall :=
  match observations with
  | [] => []
  | o :: rest =>
    if notifMatches ep object_id instance_id resource_id o then
      ⟨o.callback, o.client, o.instance_, value⟩ ::
        deliverNotification rest ep object_id instance_id resource_id value
    else deliverNotification rest ep object_id instance_id resource_id value

/-- Parsing of a notification's `res` path (`leshan_client.py` lines
116-119): `data["res"].split("/")` followed by `int(...)` on parts 1, 2
and 3; a missing part raises `IndexError` (modelled as `valueError`-free:
we keep the two decode failures distinct only where a claim needs it, and
both escape the same `except` clauses), a non-numeric part raises
`ValueError`. -/
def parseResourcePath (res : String) : Except PyExc (Int × Int × Int) := do
  let parts := res.splitOn "/"
  if h : 3 < parts.length then
    let object_id ← pyInt (.str (parts.get ⟨1, by omega⟩))
    let instance_id ← pyInt (.str (parts.get ⟨2, by omega⟩))
    let resource_id ← pyInt (.str (parts.get ⟨3, by omega⟩))
    .ok (object_id, instance_id, resource_id)
  else .error .valueError

/-- What one caught-or-not exception does to the listener's reconnect loop:
either the loop continues after sleeping `backoff` time units, or the
exception escapes the coroutine. -/
inductive ListenerStep
  | reconnect (backoff : Nat)
  | propagate (e : PyExc)
  deriving DecidableEq, Repr

/-- The exception dispatch of `_listen_endpoint_notifications`
(`leshan_client.py` lines 137-146): `except TimeoutError: pass` re-enters
the loop with no delay; `except (aiohttp.ClientError, LeshanClientError)`
logs and sleeps 5 seconds before re-entering; any other exception — in
particular `json.JSONDecodeError` from a malformed event payload or
`ValueError` from an unknown value kind — matches no clause and escapes
the loop. -/
def listenEndpointNotificationsOnError (e : PyExc) : ListenerStep :=
  if e.isTimeoutError then .reconnect 0
  else if e.isAiohttpClientError || e.isLeshanClientError then .reconnect 5
  else .propagate e

/-- `while not stop_event.is_set()` (`leshan_client.py` line 100): the loop
body runs iff the stop flag is clear. -/
def listenerLoopContinues (stop_event_is_set : Bool) : Bool :=
  !stop_event_is_set

/-- The mutable per-client state of `LeshanClient` that `observe` and
`cancel_observe` touch, plus append-only logs of the externally visible
effects: `task_endpoints` and `stop_event_endpoints` are the key sets of
`_endpoint_notification_tasks` and `_endpoint_notification_stop_events`
(dict insertion order); `stop_flags_set` / `tasks_cancelled` record each
`stop_event.set()` / `task.cancel()` call; `requests` records every
server request issued, as (method, path). -/
structure LeshanState where
  observations : List ObservationEntry
  task_endpoints : List String
  stop_event_endpoints : List String
  stop_flags_set : List String
  tasks_cancelled : List String
  requests : List (String × String)
  deriving DecidableEq, Repr

/-- The state of a freshly constructed `LeshanClient` (`__init__`). -/
def initLeshanState : LeshanState := ⟨[], [], [], [], [], []⟩

/-- Python dict key-set after `d[k] = v`: unchanged if the key is present,
otherwise the key is appended (insertion order). -/
def dictPut (keys : List String) (k : String) : List String :=
  if keys.contains k then keys else keys ++ [k]

/-- Python dict key-set after `d.pop(k)` (the source only pops keys the
registry invariant guarantees present). -/
def dictPop (keys : List String) (k : String) : List String :=
  keys.filter fun x => x != k

/-- The path `_observe_resource` builds (`leshan_client.py` lines 558-562). -/
def observeResourcePath (client : Lwm2mClient) (instance_ : Lwm2mObjectInstance)
    (resource_id : Int) : String :=
  "api/clients" ++ "/" ++ client.endpoint ++ "/" ++ toString instance_.object_id
    ++ "/" ++ toString instance_.instance_id ++ "/" ++ toString resource_id ++ "/observe"

/-- The path `_cancel_observe` builds (`leshan_client.py` lines 535-540). -/
def cancelObservePath (client : Lwm2mClient) (instance_ : Lwm2mObjectInstance)
    (resource_id : Int) : String :=
  "api/clients" ++ "/" ++ client.endpoint ++ "/" ++ toString instance_.object_id
    ++ "/" ++ toString instance_.instance_id ++ "/" ++ toString resource_id
    ++ "/observe?active"

/-- `LeshanClient.observe` (`leshan_client.py` lines 419-475): if no current
observation shares the new entry's endpoint, register a stop event and
start a listener task for that endpoint; then append the entry to
`self._observations` and issue the per-resource activation request (whose
server-side failure is caught and logged, leaving the bookkeeping
unaffected, so the request is recorded unconditionally). -/
def LeshanClient.observe (s : LeshanState) (e : ObservationEntry) : LeshanState :=
  let s1 :=
    if s.observations.any fun o => o.client.endpoint == e.client.endpoint then s
    else
      { s with
        stop_event_endpoints := dictPut s.stop_event_endpoints e.client.endpoint
        task_endpoints := dictPut s.task_endpoints e.client.endpoint }
  { s1 with
    observations := s1.observations ++ [e]
    requests := s1.requests ++
      [("POST", observeResourcePath e.client e.instance_ e.resource_id)] }

/-- The match test of `cancel_observe`'s search loop (`leshan_client.py`
lines 494-500): endpoint, object id, instance id and resource id all
equal. -/
def observationMatchesKey (client : Lwm2mClient) (object_instance : Lwm2mObjectInstance)
    (resource_id : Int) (o : ObservationEntry) : Bool :=
  o.client.endpoint == client.endpoint &&
    o.instance_.object_id == object_instance.object_id &&
    o.instance_.instance_id == object_instance.instance_id &&
    o.resource_id == resource_id

/-- Python `list.remove(target)`: drop the first element dataclass-equal to
`target` (the source only calls it on a member it just found). -/
def pyListRemove (target : ObservationEntry) : List ObservationEntry → List ObservationEntry
  | [] => []
  | o :: rest => if o.pyEq target then rest else o :: pyListRemove target rest

/-- `LeshanClient.cancel_observe` (`leshan_client.py` lines 477-521): find
the first observation matching the 4-tuple; if none, return with no effect
(the `for`/`else` returns before any request or mutation). Otherwise issue
the server-side deactivation request (`_cancel_observe`, which swallows its
own errors), remove the entry from `self._observations`, and — if no
remaining observation shares the endpoint — pop the stop event and set it,
and pop the listener task and cancel it. -/
def LeshanClient.cancel_observe (s : LeshanState) (client : Lwm2mClient)
    (object_instance : Lwm2mObjectInstance) (resource_id : Int) : LeshanState :=
  match s.observations.find? (observationMatchesKey client object_instance resource_id) with
  | none => s
  | some obs_entry =>
    let s1 := { s with requests := s.requests ++
      [("DELETE", cancelObservePath client object_instance resource_id)] }
    let rest := pyListRemove obs_entry s1.observations
    let s2 := { s1 with observations := rest }
    if rest.any fun o => o.client.endpoint == obs_entry.client.endpoint then s2
    else
      { s2 with
        stop_event_endpoints := dictPop s2.stop_event_endpoints obs_entry.client.endpoint
        stop_flags_set := s2.stop_flags_set ++ [obs_entry.client.endpoint]
        task_endpoints := dictPop s2.task_endpoints obs_entry.client.endpoint
        tasks_cancelled := s2.tasks_cancelled ++ [obs_entry.client.endpoint] }

/-- A call to `observe` or `cancel_observe`. -/
inductive RegistryOp
  | observe (e : ObservationEntry)
  | cancel (client : Lwm2mClient) (object_instance : Lwm2mObjectInstance) (resource_id : Int)

/-- Apply one registry call to the client state. -/
def applyRegistryOp (s : LeshanState) : RegistryOp → LeshanState
  | .observe e => LeshanClient.observe s e
  | .cancel client object_instance resource_id =>
    LeshanClient.cancel_observe s client object_instance resource_id

/-- Run a sequence of `observe` / `cancel_observe` calls from the freshly
constructed client. -/
def runRegistryOps (ops : List RegistryOp) : LeshanState :=
  ops.foldl applyRegistryOp initLeshanState

/-- `LeshanLwm2mCoordinatorPollListEntry` (`leshan_lwm2m_coordinator.py`):
a client and the instances declared for polling. -/
structure LeshanLwm2mCoordinatorPollListEntry where
  client : Lwm2mClient
  instances : List Lwm2mObjectInstance
  deriving DecidableEq, Repr

/-- `LeshanLwm2mPollResult`: the client and instance that were polled and
the resources read. -/
structure LeshanLwm2mPollResult where
  client : Lwm2mClient
  instance_ : Lwm2mObjectInstance
  resources : List Lwm2mResourceValue
  deriving DecidableEq, Repr

/-- `LeshanLwm2mCoordinatorData`: the snapshot one successful poll cycle
produces. -/
structure LeshanLwm2mCoordinatorData where
  clients : List Lwm2mClient
  poll_results : List LeshanLwm2mPollResult
  deriving DecidableEq, Repr

/-- The `UpdateFailed` exception `async_update_data` raises, carrying its
formatted message. -/
inductive UpdateFailed
  | updateFailed (message : String)
  deriving DecidableEq, Repr

/-- A short printable form of a modelled Python exception, standing for
Python's `str(e)` in the `UpdateFailed` message. -/
def pyExcStr : PyExc → String
  | .timeoutError => "TimeoutError"
  | .aiohttpClientError => "ClientError"
  | .leshanClientError => "LeshanClientError"
  | .leshanClientConnectionError => "LeshanClientConnectionError"
  | .leshanClientConnectionTimeoutError => "LeshanClientConnectionTimeoutError"
  | .jsonDecodeError => "JSONDecodeError"
  | .valueError => "ValueError"

/-- The inner loop of `async_update_data` over one poll entry's instances
(`leshan_lwm2m_coordinator.py` lines 100-111): read each instance in order
and append a poll result; the first raising read aborts the whole cycle. -/
def pollInstances (read : Lwm2mClient → Lwm2mObjectInstance → Except PyExc (List Lwm2mResourceValue))
    (client : Lwm2mClient) :
    List Lwm2mObjectInstance → Except PyExc (List LeshanLwm2mPollResult)
  | [] => .ok []
  | i :: rest => do
    let resources ← read client i
    let tail ← pollInstances read client rest
    .ok (⟨client, i, resources⟩ :: tail)

/-- The outer loop of `async_update_data` over the poll list. -/
def pollEntries (read : Lwm2mClient → Lwm2mObjectInstance → Except PyExc (List Lwm2mResourceValue)) :
    List LeshanLwm2mCoordinatorPollListEntry → Except PyExc (List LeshanLwm2mPollResult)
  | [] => .ok []
  | e :: rest => do
    let head ← pollInstances read e.client e.instances
    let tail ← pollEntries read rest
    .ok (head ++ tail)

/-- `LeshanLwm2mCoordinator.async_update_data`
(`leshan_lwm2m_coordinator.py` lines 94-116): fetch the directory, then
read every declared (client, instance) pair, collecting poll results; any
exception in the `try` block is wrapped once as
`UpdateFailed("Error fetching data: ...")` and raised, dropping the partial
`poll_results`; on success the new `LeshanLwm2mCoordinatorData` is
returned. The directory fetch and each read are represented by their
outcomes (`get_clients_result`, `read`). -/
def LeshanLwm2mCoordinator.async_update_data
    (get_clients_result : Except PyExc (List Lwm2mClient))
    (read : Lwm2mClient → Lwm2mObjectInstance → Except PyExc (List Lwm2mResourceValue))
    (poll_list : List LeshanLwm2mCoordinatorPollListEntry) :
    Except UpdateFailed LeshanLwm2mCoordinatorData :=
  let body : Except PyExc LeshanLwm2mCoordinatorData := do
    let clients ← get_clients_result
    let poll_results ← pollEntries read poll_list
    .ok ⟨clients, poll_results⟩
  match body with
  | .ok d => .ok d
  | .error e => .error (.updateFailed ("Error fetching data: " ++ pyExcStr e))

/-- Modelled from the spec: the host's update-coordinator machinery
(Home Assistant's `DataUpdateCoordinator`, outside this repository) keeps
the previous data when the update method raises `UpdateFailed`, reporting
the failure once to its caller, and replaces the data with the returned
value on success — "the previous Snapshot remains the last-known-good
value". -/
def coordinatorStep (prev : LeshanLwm2mCoordinatorData)
    (result : Except UpdateFailed LeshanLwm2mCoordinatorData) :
    LeshanLwm2mCoordinatorData :=
  match result with
  | .ok d => d
  | .error _ => prev

/-- A concrete client used to exercise the registry semantics. -/
def exampleClientA : Lwm2mClient := ⟨"epA", "r1", []⟩

/-- A concrete object instance (object 3, instance 0). -/
def exampleInstance30 : Lwm2mObjectInstance := ⟨3, 0⟩

/-- An observation of resource 5 on the example client. -/
def exampleObs5 : ObservationEntry := ⟨exampleClientA, exampleInstance30, 5, 0⟩

/-- An observation of resource 6 on the example client. -/
def exampleObs6 : ObservationEntry := ⟨exampleClientA, exampleInstance30, 6, 1⟩

/-- The client state after observing resources 5 and 6 on endpoint "epA"
from a fresh client. -/
def exampleRegistryState : LeshanState :=
  runRegistryOps [.observe exampleObs5, .observe exampleObs6]

/-- C3 counterexample: the kind string "objlnk" is outside the set the claim
lists as the only valid kinds, yet construction succeeds on it; and the
listed kind "object-link" (over which the claim asserts decoding is total)
fails with `ValueError` — there is also no `InvalidKindError` in the
repository, `exceptions.py` defining only the Leshan connection errors. -/
theorem value_codec_unknown_kind_counterexample :
    (mkLwm2mResourceValue 0 "objlnk" (.str "3:4")).isOk = true ∧
    "objlnk" ∉ ["string", "integer", "float", "boolean", "opaque", "time", "object-link"] ∧
    mkLwm2mResourceValue 0 "object-link" (.str "3:4") = .error .valueError := by
  refine ⟨by rfl, by decide, by rfl⟩

/-- C3 (amended): decoding kind "integer" with raw "42" yields integer 42
and kind "boolean" with raw "true" yields boolean true; the known kinds are
the enum member strings (matched case-insensitively) whose object-link
member is spelled "objlnk"; any kind string whose lowercasing is not one of
those seven fails construction with Python `ValueError` from the enum
lookup (the repository defines no `InvalidKindError`), never a silent
fallback. -/
theorem value_codec_decoding (kind : String) (v : WireVal)
    (h : pyLower kind ∉ ["string", "integer", "float", "boolean", "opaque", "time", "objlnk"]) :
    mkLwm2mResourceValue 0 "integer" (.str "42") =
      .ok ⟨0, .integer, .int 42⟩ ∧
    mkLwm2mResourceValue 0 "boolean" (.str "true") =
      .ok ⟨0, .boolean, .bool true⟩ ∧
    ∀ resource_id : Int, mkLwm2mResourceValue resource_id kind v = .error .valueError := by
  simp only [List.mem_cons, List.mem_singleton, not_or] at h
  obtain ⟨h1, h2, h3, h4, h5, h6, h7, -⟩ := h
  refine ⟨by rfl, by rfl, fun resource_id => ?_⟩
  simp [mkLwm2mResourceValue, Lwm2mResourceValueType.lookup, Bind.bind, Except.bind,
    h1, h2, h3, h4, h5, h6, h7]

/-- C3 witness: the amended theorem applied at the unknown kind
"colour". -/
theorem value_codec_decoding_witness :
    mkLwm2mResourceValue 7 "colour" (.str "x") = .error .valueError :=
  (value_codec_decoding "colour" (.str "x") (by decide)).2.2 7

/-- C9: decoding a resource value with kind "boolean" applies Python
`bool(...)` to the raw wire string, i.e. string truthiness: every non-empty
raw string — including "false" and "0" — decodes to boolean true, and only
the empty string decodes to boolean false. -/
theorem boolean_decode_uses_truthiness (resource_id : Int) (s : String) :
    mkLwm2mResourceValue resource_id "boolean" (.str s) =
      .ok ⟨resource_id, .boolean, .bool (!s.data.isEmpty)⟩ ∧
    mkLwm2mResourceValue resource_id "boolean" (.str "false") =
      .ok ⟨resource_id, .boolean, .bool true⟩ ∧
    mkLwm2mResourceValue resource_id "boolean" (.str "0") =
      .ok ⟨resource_id, .boolean, .bool true⟩ ∧
    mkLwm2mResourceValue resource_id "boolean" (.str "") =
      .ok ⟨resource_id, .boolean, .bool false⟩ := by
  have hb : Lwm2mResourceValueType.lookup (pyLower "boolean") =
      .ok .boolean := by rfl
  refine ⟨?_, ?_, ?_, ?_⟩ <;>
    simp [mkLwm2mResourceValue, hb, pyBool, Bind.bind, Except.bind]

/-- C10: for a read with `resource_id = 0` the request path omits the
resource segment — the `if resource_id:` truthiness check treats 0 like
`None` — so the request is the whole-object-instance read (whose response
carries all resource values); for `resource_id > 0` the path includes the
resource segment. -/
theorem read_resource_zero_reads_whole_instance (endpoint : String)
    (object_instance : Lwm2mObjectInstance) (r : Int) (hr : 0 < r) :
    LeshanClient.readPath endpoint object_instance (some 0) =
      LeshanClient.readPath endpoint object_instance none ∧
    LeshanClient.readPath endpoint object_instance (some r) =
      LeshanClient.readPath endpoint object_instance none ++ "/" ++ toString r := by
  refine ⟨by simp [LeshanClient.readPath], ?_⟩
  simp [LeshanClient.readPath, hr.ne']

/-- C10 witness: the theorem at endpoint "ep", instance (3, 0) and
resource 5. -/
theorem read_resource_zero_witness :
    LeshanClient.readPath "ep" ⟨3, 0⟩ (some 0) =
      LeshanClient.readPath "ep" ⟨3, 0⟩ none ∧
    LeshanClient.readPath "ep" ⟨3, 0⟩ (some 5) =
      LeshanClient.readPath "ep" ⟨3, 0⟩ none ++ "/" ++ toString (5 : Int) :=
  read_resource_zero_reads_whole_instance "ep" ⟨3, 0⟩ 5 (by decide)

/-- C2 counterexample: a malformed event payload raises
`json.JSONDecodeError`, which matches neither `except TimeoutError` nor
`except (aiohttp.ClientError, LeshanClientError)`, so the listener loop
does not reconnect — the exception propagates out of the loop, against the
claim that no error ever propagates. -/
theorem listener_decode_error_propagates :
    listenEndpointNotificationsOnError .jsonDecodeError = .propagate .jsonDecodeError ∧
    listenEndpointNotificationsOnError .jsonDecodeError ≠ .reconnect 0 ∧
    listenEndpointNotificationsOnError .jsonDecodeError ≠ .reconnect 5 := by
  decide

/-- C2 (amended): inside the reconnect loop of
`_listen_endpoint_notifications`, a stream-level timeout reconnects
immediately with no delay, and transport errors — `aiohttp.ClientError` or
any `LeshanClientError` (including its connection subclasses) — are
caught, logged, and followed by a fixed 5-second backoff before
reconnecting; decode errors (malformed event JSON, unknown value kind)
match no `except` clause and propagate out of the loop; the loop body runs
only while the stop flag is clear. -/
theorem listener_error_policy (stop_event_is_set : Bool) :
    listenEndpointNotificationsOnError .timeoutError = .reconnect 0 ∧
    listenEndpointNotificationsOnError .aiohttpClientError = .reconnect 5 ∧
    listenEndpointNotificationsOnError .leshanClientError = .reconnect 5 ∧
    listenEndpointNotificationsOnError .leshanClientConnectionError = .reconnect 5 ∧
    listenEndpointNotificationsOnError .leshanClientConnectionTimeoutError = .reconnect 5 ∧
    listenEndpointNotificationsOnError .jsonDecodeError = .propagate .jsonDecodeError ∧
    listenEndpointNotificationsOnError .valueError = .propagate .valueError ∧
    listenerLoopContinues stop_event_is_set = !stop_event_is_set :=
  ⟨rfl, rfl, rfl, rfl, rfl, rfl, rfl, rfl⟩

/-- C7: `request` raises `LeshanClientError` carrying the status and the
decoded JSON body (or the raw text wrapped under "message") for every
status in [400, 600); `LeshanClientConnectionTimeoutError` when the
deadline expires; `LeshanClientConnectionError` on a connection failure;
and returns the parsed body without raising for every status outside
[400, 600). -/
theorem transport_error_taxonomy (host : String) (status : Nat)
    (content_type : String) (json_body : PyJson) (text_body : String) :
    (400 ≤ status → status < 600 → content_type = "application/json" →
      LeshanClient.request host (.response status content_type json_body text_body) =
        .error (.leshanClientError status json_body)) ∧
    (400 ≤ status → status < 600 → content_type ≠ "application/json" →
      LeshanClient.request host (.response status content_type json_body text_body) =
        .error (.leshanClientError status (.obj [("message", .str text_body)]))) ∧
    LeshanClient.request host .timeout =
      .error (.connectionTimeoutError ("Timeout connecting to server at " ++ host)) ∧
    LeshanClient.request host .connectionError =
      .error (.connectionError ("Error connecting to server at " ++ host)) ∧
    (¬(400 ≤ status ∧ status < 600) →
      LeshanClient.request host (.response status content_type json_body text_body) =
        .ok (if content_type = "application/json" then json_body
          else .obj [("data", .str text_body)])) := by
  refine ⟨fun h1 h2 h3 => ?_, fun h1 h2 h3 => ?_, rfl, rfl, fun h => ?_⟩
  · simp only [LeshanClient.request, if_pos (And.intro h1 h2), if_pos h3]
  · simp only [LeshanClient.request, if_pos (And.intro h1 h2), if_neg h3]
  · simp only [LeshanClient.request, if_neg h]
    split <;> rfl

/-- C7 witness: the theorem at a JSON-typed 404, a text-typed 503, a
timeout, a connection failure and a successful 200. -/
theorem transport_error_taxonomy_witness :
    LeshanClient.request "h" (.response 404 "application/json" (.str "e") "raw") =
      .error (.leshanClientError 404 (.str "e")) ∧
    LeshanClient.request "h" (.response 503 "text/plain" (.str "e") "boom") =
      .error (.leshanClientError 503 (.obj [("message", .str "boom")])) ∧
    LeshanClient.request "h" .timeout =
      .error (.connectionTimeoutError ("Timeout connecting to server at " ++ "h")) ∧
    LeshanClient.request "h" (.response 200 "text/plain" (.str "e") "ok") =
      .ok (.obj [("data", .str "ok")]) := by
  refine ⟨(transport_error_taxonomy "h" 404 "application/json" (.str "e") "raw").1
      (by omega) (by omega) rfl,
    (transport_error_taxonomy "h" 503 "text/plain" (.str "e") "boom").2.1
      (by omega) (by omega) (by simp),
    (transport_error_taxonomy "h" 200 "text/plain" (.str "e") "ok").2.2.1, ?_⟩
  have h := (transport_error_taxonomy "h" 200 "text/plain" (.str "e") "ok").2.2.2.2
    (by omega)
  simpa using h

/-- C5: a notification carrying endpoint `ep`, parsed path components and a
decoded value is delivered to exactly the observations whose
(endpoint, object-id, instance-id, resource-id) equal the notification's —
an exact 4-tuple match with no wildcarding — and the fired callbacks are
the matching entries in registration order, each receiving the same
decoded value; duplicate registrations each fire. -/
theorem notification_exact_routing (observations : List ObservationEntry)
    (ep : String) (object_id instance_id resource_id : Int)
    (value : Lwm2mResourceValue) :
    deliverNotification observations ep object_id instance_id resource_id value =
      (observations.filter (notifMatches ep object_id instance_id resource_id)).map
        fun o => ⟨o.callback, o.client, o.instance_, value⟩ := by
  induction observations with
  | nil => rfl
  | cons o rest ih =>
    cases h : notifMatches ep object_id instance_id resource_id o <;>
      simp [deliverNotification, List.filter_cons, h, ih]

/-- One merge step never drops registry entries: the registry before is a
prefix of the registry after. -/
theorem getClientsStep_extends (acc : List Lwm2mClient × List Lwm2mClient)
    (d : Lwm2mClientData) : acc.1 <+: (getClientsStep acc d).1 := by
  by_cases hc : (acc.1.any fun x => x.endpoint == (mkLwm2mClient d).endpoint) = true
  · have hacc : getClientsStep acc d = acc := by simp [getClientsStep, hc]
    rw [hacc]
  · have hacc : (getClientsStep acc d).1 = acc.1 ++ [mkLwm2mClient d] := by
      simp [getClientsStep, hc]
    rw [hacc]
    exact ⟨[mkLwm2mClient d], rfl⟩

/-- The whole merge fold never drops registry entries. -/
theorem getClientsFold_extends (listing : List Lwm2mClientData)
    (acc : List Lwm2mClient × List Lwm2mClient) :
    acc.1 <+: (listing.foldl getClientsStep acc).1 := by
  induction listing generalizing acc with
  | nil => exact List.prefix_refl _
  | cons d rest ih =>
    rw [List.foldl_cons]
    exact (getClientsStep_extends acc d).trans (ih _)

/-- A merge step on an entry whose endpoint is already registered leaves
the accumulator unchanged. -/
theorem getClientsStep_of_present (acc : List Lwm2mClient × List Lwm2mClient)
    (d : Lwm2mClientData)
    (h : ∃ x ∈ acc.1, x.endpoint = (mkLwm2mClient d).endpoint) :
    getClientsStep acc d = acc := by
  unfold getClientsStep
  rw [if_pos]
  obtain ⟨x, hx, he⟩ := h
  exact List.any_eq_true.2 ⟨x, hx, by simp [he]⟩

/-- After the merge fold, every listing entry has its endpoint in the
registry. -/
theorem getClientsFold_covers (listing : List Lwm2mClientData)
    (d : Lwm2mClientData) (hd : d ∈ listing)
    (acc : List Lwm2mClient × List Lwm2mClient) :
    ∃ x ∈ (listing.foldl getClientsStep acc).1,
      x.endpoint = (mkLwm2mClient d).endpoint := by
  induction listing generalizing acc with
  | nil => cases hd
  | cons d0 rest ih =>
    rw [List.foldl_cons]
    rcases List.mem_cons.1 hd with rfl | hd'
    · have hstep : ∃ x ∈ (getClientsStep acc d).1,
          x.endpoint = (mkLwm2mClient d).endpoint := by
        by_cases hc : (acc.1.any fun x => x.endpoint == (mkLwm2mClient d).endpoint) = true
        · have hacc : getClientsStep acc d = acc := by simp [getClientsStep, hc]
          obtain ⟨x, hx, he⟩ := List.any_eq_true.1 hc
          exact ⟨x, by rw [hacc]; exact hx, by simpa using he⟩
        · have hacc : (getClientsStep acc d).1 = acc.1 ++ [mkLwm2mClient d] := by
            simp [getClientsStep, hc]
          exact ⟨mkLwm2mClient d, by rw [hacc]; simp, rfl⟩
      obtain ⟨x, hx, he⟩ := hstep
      exact ⟨x, (getClientsFold_extends rest _).subset hx, he⟩
    · exact ih hd' _

/-- The merge fold is the identity when every listing endpoint is already
registered. -/
theorem getClientsFold_stable (listing : List Lwm2mClientData)
    (acc : List Lwm2mClient × List Lwm2mClient)
    (h : ∀ d ∈ listing, ∃ x ∈ acc.1, x.endpoint = (mkLwm2mClient d).endpoint) :
    listing.foldl getClientsStep acc = acc := by
  induction listing with
  | nil => rfl
  | cons d rest ih =>
    rw [List.foldl_cons, getClientsStep_of_present acc d (h d (by simp))]
    exact ih fun d' hd' => h d' (by simp [hd'])

/-- The merge fold never adds a second entry for an endpoint already
registered: the entries carrying that endpoint are exactly the ones from
before (first-seen wins). -/
theorem getClientsFold_filter_preserved (listing : List Lwm2mClientData)
    (acc : List Lwm2mClient × List Lwm2mClient) (e : String)
    (h : ∃ x ∈ acc.1, x.endpoint = e) :
    ((listing.foldl getClientsStep acc).1.filter fun x => x.endpoint == e) =
      acc.1.filter fun x => x.endpoint == e := by
  induction listing generalizing acc with
  | nil => rfl
  | cons d rest ih =>
    rw [List.foldl_cons]
    by_cases hc : (acc.1.any fun x => x.endpoint == (mkLwm2mClient d).endpoint) = true
    · have hacc : getClientsStep acc d = acc := by
        obtain ⟨x, hx, he⟩ := List.any_eq_true.1 hc
        exact getClientsStep_of_present acc d ⟨x, hx, by simpa using he⟩
      rw [hacc]
      exact ih acc h
    · have hstep : (getClientsStep acc d).1 = acc.1 ++ [mkLwm2mClient d] := by
        unfold getClientsStep
        rw [if_neg hc]
      have hne : (mkLwm2mClient d).endpoint ≠ e := by
        intro heq
        obtain ⟨x, hx, hxe⟩ := h
        exact hc (List.any_eq_true.2 ⟨x, hx, by simp [hxe, heq]⟩)
      have hpres : ∃ x ∈ (getClientsStep acc d).1, x.endpoint = e := by
        obtain ⟨x, hx, hxe⟩ := h
        exact ⟨x, by rw [hstep]; exact List.mem_append_left _ hx, hxe⟩
      rw [ih _ hpres, hstep, List.filter_append]
      simp [hne]

/-- C6: directory refresh is idempotent with respect to set membership —
for an unchanged server listing, running `get_clients` N+1 times yields the
same registry (hence the same device count) as running it once; the method
returns the full current registry, not only newly seen devices; every
previously known device stays (the old registry is a prefix of the new);
and a device whose endpoint is already present is never duplicated: the
entries carrying that endpoint are exactly those from before, first-seen
kept. -/
theorem get_clients_idempotent_full_set (listing : List Lwm2mClientData)
    (s : List Lwm2mClient) (e : String) :
    (∀ n : Nat, (fun t => (LeshanClient.get_clients listing t).1)^[n + 1] s =
      (LeshanClient.get_clients listing s).1) ∧
    (LeshanClient.get_clients listing s).2 = (LeshanClient.get_clients listing s).1 ∧
    s <+: (LeshanClient.get_clients listing s).1 ∧
    ((∃ x ∈ s, x.endpoint = e) →
      ((LeshanClient.get_clients listing s).1.filter fun x => x.endpoint == e) =
        s.filter fun x => x.endpoint == e) := by
  have hfix : ∀ t : List Lwm2mClient,
      (LeshanClient.get_clients listing ((LeshanClient.get_clients listing t).1)).1 =
        (LeshanClient.get_clients listing t).1 := by
    intro t
    have hcov : ∀ d ∈ listing,
        ∃ x ∈ (LeshanClient.get_clients listing t).1,
          x.endpoint = (mkLwm2mClient d).endpoint := fun d hd =>
      getClientsFold_covers listing d hd (t, [])
    have hst := getClientsFold_stable listing ((LeshanClient.get_clients listing t).1, []) hcov
    show (List.foldl getClientsStep ((LeshanClient.get_clients listing t).1, []) listing).1 = _
    rw [hst]
  refine ⟨?_, rfl, getClientsFold_extends listing (s, []),
    fun h => getClientsFold_filter_preserved listing (s, []) e h⟩
  intro n
  induction n with
  | zero => simp
  | succ n ih =>
    rw [Function.iterate_succ_apply', ih]
    exact hfix s

/-- C6 witness: the theorem at a one-entry listing for endpoint "epA" —
iterated twice from the empty registry of a fresh client, and the
no-duplication conjunct at a registry already holding an "epA" record. -/
theorem get_clients_idempotent_witness :
    (fun t => (LeshanClient.get_clients [⟨"epA", "r2", [(3, [0])]⟩] t).1)^[2] [] =
      (LeshanClient.get_clients [⟨"epA", "r2", [(3, [0])]⟩] []).1 ∧
    ((LeshanClient.get_clients [⟨"epA", "r2", [(3, [0])]⟩]
        [⟨"epA", "r1", []⟩]).1.filter fun x => x.endpoint == "epA") =
      [(⟨"epA", "r1", []⟩ : Lwm2mClient)].filter fun x => x.endpoint == "epA" :=
  ⟨(get_clients_idempotent_full_set [⟨"epA", "r2", [(3, [0])]⟩] [] "epA").1 1,
    (get_clients_idempotent_full_set [⟨"epA", "r2", [(3, [0])]⟩]
      [⟨"epA", "r1", []⟩] "epA").2.2.2 ⟨⟨"epA", "r1", []⟩, by simp, rfl⟩⟩

/-- Entries that `list.remove` considers equal have equal endpoints, since
dataclass equality compares the clients by endpoint. -/
theorem ObservationEntry.pyEq_endpoint {x t : ObservationEntry} (h : x.pyEq t = true) :
    x.client.endpoint = t.client.endpoint := by
  simp only [ObservationEntry.pyEq, Lwm2mClient.pyEq, Bool.and_eq_true,
    beq_iff_eq] at h
  exact h.1.1.1

/-- `list.remove` leaves a sublist (it deletes one occurrence). -/
theorem pyListRemove_sublist (t : ObservationEntry) (l : List ObservationEntry) :
    List.Sublist (pyListRemove t l) l := by
  induction l with
  | nil => simp [pyListRemove]
  | cons o rest ih =>
    simp only [pyListRemove]
    split
    · exact List.sublist_cons_self o rest
    · exact ih.cons₂ o

/-- Every element of the original list either survives `list.remove` or is
dataclass-equal to the removed target. -/
theorem mem_pyListRemove_or (t x : ObservationEntry) (l : List ObservationEntry)
    (h : x ∈ l) : x ∈ pyListRemove t l ∨ x.pyEq t = true := by
  induction l with
  | nil => cases h
  | cons o rest ih =>
    simp only [pyListRemove]
    rcases List.mem_cons.1 h with rfl | h'
    · split
      · rename_i ht
        exact Or.inr ht
      · exact Or.inl (List.mem_cons_self _ _)
    · split
      · exact Or.inl h'
      · rcases ih h' with hm | ht
        · exact Or.inl (List.mem_cons_of_mem _ hm)
        · exact Or.inr ht

/-- `cancel_observe` with no matching observation returns before any
request or mutation. -/
theorem cancel_observe_noop (s : LeshanState) (client : Lwm2mClient)
    (object_instance : Lwm2mObjectInstance) (resource_id : Int)
    (hf : s.observations.find? (observationMatchesKey client object_instance resource_id)
      = none) :
    LeshanClient.cancel_observe s client object_instance resource_id = s := by
  simp [LeshanClient.cancel_observe, hf]

/-- `cancel_observe` when another observation still shares the endpoint:
the matched entry is removed and the deactivation request issued, but the
listener bookkeeping is untouched. -/
theorem cancel_observe_nonlast (s : LeshanState) (client : Lwm2mClient)
    (object_instance : Lwm2mObjectInstance) (resource_id : Int)
    (obs_entry : ObservationEntry)
    (hf : s.observations.find? (observationMatchesKey client object_instance resource_id)
      = some obs_entry)
    (hr : ((pyListRemove obs_entry s.observations).any
      fun o => o.client.endpoint == obs_entry.client.endpoint) = true) :
    LeshanClient.cancel_observe s client object_instance resource_id =
      { s with
        observations := pyListRemove obs_entry s.observations
        requests := s.requests ++
          [("DELETE", cancelObservePath client object_instance resource_id)] } := by
  simp [LeshanClient.cancel_observe, hf, hr]

/-- `cancel_observe` on the last observation of an endpoint: the entry is
removed, the deactivation request issued, and the listener is stopped and
discarded — the stop event is popped and set, the task popped and
cancelled. -/
theorem cancel_observe_last (s : LeshanState) (client : Lwm2mClient)
    (object_instance : Lwm2mObjectInstance) (resource_id : Int)
    (obs_entry : ObservationEntry)
    (hf : s.observations.find? (observationMatchesKey client object_instance resource_id)
      = some obs_entry)
    (hr : ((pyListRemove obs_entry s.observations).any
      fun o => o.client.endpoint == obs_entry.client.endpoint) = false) :
    LeshanClient.cancel_observe s client object_instance resource_id =
      { observations := pyListRemove obs_entry s.observations
        task_endpoints := dictPop s.task_endpoints obs_entry.client.endpoint
        stop_event_endpoints := dictPop s.stop_event_endpoints obs_entry.client.endpoint
        stop_flags_set := s.stop_flags_set ++ [obs_entry.client.endpoint]
        tasks_cancelled := s.tasks_cancelled ++ [obs_entry.client.endpoint]
        requests := s.requests ++
          [("DELETE", cancelObservePath client object_instance resource_id)] } := by
  simp [LeshanClient.cancel_observe, hf, hr]

/-- `observe` when some observation already has the endpoint: no listener
is started; the entry is appended and the activation request issued. -/
theorem observe_existing_endpoint (s : LeshanState) (e : ObservationEntry)
    (hc : (s.observations.any fun o => o.client.endpoint == e.client.endpoint) = true) :
    LeshanClient.observe s e =
      { s with
        observations := s.observations ++ [e]
        requests := s.requests ++
          [("POST", observeResourcePath e.client e.instance_ e.resource_id)] } := by
  simp [LeshanClient.observe, hc]

/-- `observe` on an endpoint with no current observation: a stop event and
a listener task are registered for the endpoint, then the entry is appended
and the activation request issued. -/
theorem observe_new_endpoint (s : LeshanState) (e : ObservationEntry)
    (hc : (s.observations.any fun o => o.client.endpoint == e.client.endpoint) = false) :
    LeshanClient.observe s e =
      { s with
        observations := s.observations ++ [e]
        task_endpoints := dictPut s.task_endpoints e.client.endpoint
        stop_event_endpoints := dictPut s.stop_event_endpoints e.client.endpoint
        requests := s.requests ++
          [("POST", observeResourcePath e.client e.instance_ e.resource_id)] } := by
  simp [LeshanClient.observe, hc]

/-- One `observe` or `cancel_observe` call preserves the listener
invariant: the listener task key set has no duplicates and contains exactly
the endpoints of the current observations. -/
theorem registry_invariant_step (s : LeshanState)
    (hnd : s.task_endpoints.Nodup)
    (hiff : ∀ ep, ep ∈ s.task_endpoints ↔
      ∃ o ∈ s.observations, o.client.endpoint = ep)
    (op : RegistryOp) :
    (applyRegistryOp s op).task_endpoints.Nodup ∧
    ∀ ep, ep ∈ (applyRegistryOp s op).task_endpoints ↔
      ∃ o ∈ (applyRegistryOp s op).observations, o.client.endpoint = ep := by
  cases op with
  | observe e =>
    simp only [applyRegistryOp]
    by_cases hc : (s.observations.any fun o => o.client.endpoint == e.client.endpoint) = true
    · rw [observe_existing_endpoint s e hc]
      obtain ⟨o0, ho0, he0⟩ := List.any_eq_true.1 hc
      have he0' : o0.client.endpoint = e.client.endpoint := by simpa using he0
      refine ⟨hnd, fun ep => ?_⟩
      constructor
      · intro hin
        obtain ⟨o, ho, hoe⟩ := (hiff ep).1 hin
        exact ⟨o, List.mem_append_left _ ho, hoe⟩
      · rintro ⟨o, ho, hoe⟩
        rcases List.mem_append.1 ho with ho' | ho'
        · exact (hiff ep).2 ⟨o, ho', hoe⟩
        · have : o = e := by simpa using ho'
          subst this
          exact (hiff ep).2 ⟨o0, ho0, by rw [he0', hoe]⟩
    · rw [observe_new_endpoint s e (by simpa using hc)]
      have hnotin : e.client.endpoint ∉ s.task_endpoints := by
        intro hin
        obtain ⟨o, ho, hoe⟩ := (hiff _).1 hin
        have : (s.observations.any fun o => o.client.endpoint == e.client.endpoint) = true :=
          List.any_eq_true.2 ⟨o, ho, by simp [hoe]⟩
        exact hc this
      have hput : dictPut s.task_endpoints e.client.endpoint =
          s.task_endpoints ++ [e.client.endpoint] := by
        simp [dictPut, List.contains, hnotin]
      rw [hput]
      constructor
      · simp [List.nodup_append, hnd, hnotin]
      · intro ep
        rw [List.mem_append]
        constructor
        · rintro (hin | hin)
          · obtain ⟨o, ho, hoe⟩ := (hiff ep).1 hin
            exact ⟨o, List.mem_append_left _ ho, hoe⟩
          · have : ep = e.client.endpoint := by simpa using hin
            subst this
            exact ⟨e, List.mem_append_right _ (by simp), rfl⟩
        · rintro ⟨o, ho, hoe⟩
          rcases List.mem_append.1 ho with ho' | ho'
          · exact Or.inl ((hiff ep).2 ⟨o, ho', hoe⟩)
          · have : o = e := by simpa using ho'
            subst this
            simp [hoe]
  | cancel client object_instance resource_id =>
    simp only [applyRegistryOp]
    cases hf : s.observations.find? (observationMatchesKey client object_instance resource_id) with
    | none =>
      rw [cancel_observe_noop s client object_instance resource_id hf]
      exact ⟨hnd, hiff⟩
    | some obs_entry =>
      have hmem : obs_entry ∈ s.observations := List.mem_of_find?_eq_some hf
      have hsub := pyListRemove_sublist obs_entry s.observations
      have hsurv : ∀ x ∈ s.observations,
          x ∈ pyListRemove obs_entry s.observations ∨
            x.client.endpoint = obs_entry.client.endpoint := by
        intro x hx
        rcases mem_pyListRemove_or obs_entry x _ hx with hm | ht
        · exact Or.inl hm
        · exact Or.inr (ObservationEntry.pyEq_endpoint ht)
      by_cases hr : ((pyListRemove obs_entry s.observations).any
          fun o => o.client.endpoint == obs_entry.client.endpoint) = true
      · rw [cancel_observe_nonlast s client object_instance resource_id obs_entry hf hr]
        refine ⟨hnd, fun ep => ?_⟩
        constructor
        · intro hin
          obtain ⟨o, ho, hoe⟩ := (hiff ep).1 hin
          rcases hsurv o ho with hm | hepc
          · exact ⟨o, hm, hoe⟩
          · obtain ⟨o', ho', hoe'⟩ := List.any_eq_true.1 hr
            refine ⟨o', ho', ?_⟩
            have : o'.client.endpoint = obs_entry.client.endpoint := by simpa using hoe'
            rw [this, ← hepc, hoe]
        · rintro ⟨o, ho, hoe⟩
          exact (hiff ep).2 ⟨o, hsub.subset ho, hoe⟩
      · rw [cancel_observe_last s client object_instance resource_id obs_entry hf
          (by simpa using hr)]
        have hnone : ∀ o ∈ pyListRemove obs_entry s.observations,
            o.client.endpoint ≠ obs_entry.client.endpoint := by
          intro o ho heq
          exact hr (List.any_eq_true.2 ⟨o, ho, by simp [heq]⟩)
        constructor
        · exact hnd.filter _
        · intro ep
          dsimp only [dictPop]
          rw [List.mem_filter]
          constructor
          · rintro ⟨hin, hne⟩
            have hne' : ep ≠ obs_entry.client.endpoint := by simpa using hne
            obtain ⟨o, ho, hoe⟩ := (hiff ep).1 hin
            rcases hsurv o ho with hm | hepc
            · exact ⟨o, hm, hoe⟩
            · exact absurd (hoe ▸ hepc) hne'
          · rintro ⟨o, ho, hoe⟩
            have hne' : ep ≠ obs_entry.client.endpoint := by
              rw [← hoe]
              exact hnone o ho
            exact ⟨(hiff ep).2 ⟨o, hsub.subset ho, hoe⟩, by simpa using hne'⟩

/-- C1: after every sequence of `observe` and `cancel_observe` calls from a
freshly constructed client, the live listener task keys are exactly the
distinct endpoints of the current observations — no duplicates, so
repeated observes on one endpoint (with distinct resources) keep exactly
one listener task, and an endpoint with no remaining observation keeps
none. -/
theorem listener_tasks_match_subscription_endpoints (ops : List RegistryOp) :
    (runRegistryOps ops).task_endpoints.Nodup ∧
    ∀ ep, ep ∈ (runRegistryOps ops).task_endpoints ↔
      ∃ o ∈ (runRegistryOps ops).observations, o.client.endpoint = ep := by
  have main : ∀ (l : List RegistryOp) (s : LeshanState),
      s.task_endpoints.Nodup →
      (∀ ep, ep ∈ s.task_endpoints ↔ ∃ o ∈ s.observations, o.client.endpoint = ep) →
      (l.foldl applyRegistryOp s).task_endpoints.Nodup ∧
        ∀ ep, ep ∈ (l.foldl applyRegistryOp s).task_endpoints ↔
          ∃ o ∈ (l.foldl applyRegistryOp s).observations, o.client.endpoint = ep := by
    intro l
    induction l with
    | nil => exact fun s h1 h2 => ⟨h1, h2⟩
    | cons op rest ih =>
      intro s h1 h2
      rw [List.foldl_cons]
      obtain ⟨h1', h2'⟩ := registry_invariant_step s h1 h2 op
      exact ih _ h1' h2'
  simp only [runRegistryOps]
  exact main ops initLeshanState (by simp [initLeshanState]) (by simp [initLeshanState])

/-- C8: `cancel_observe` semantics — when no observation matches the
(endpoint, object, instance, resource) key the call is a no-op (no error,
no server request, no state change); when the first matching entry is found
and other observations still share its endpoint, only the entry is removed
and the deactivation request issued, the listener bookkeeping untouched;
when it was the last observation for the endpoint, the entry is removed and
the listener stopped and discarded — stop event popped and its flag set,
task popped and cancelled. -/
theorem cancel_observe_case_semantics (s : LeshanState) (client : Lwm2mClient)
    (object_instance : Lwm2mObjectInstance) (resource_id : Int) :
    ((∀ o ∈ s.observations,
        observationMatchesKey client object_instance resource_id o = false) →
      LeshanClient.cancel_observe s client object_instance resource_id = s) ∧
    ∀ obs_entry,
      s.observations.find? (observationMatchesKey client object_instance resource_id)
        = some obs_entry →
      ((∃ o ∈ pyListRemove obs_entry s.observations,
          o.client.endpoint = obs_entry.client.endpoint) →
        LeshanClient.cancel_observe s client object_instance resource_id =
          { s with
            observations := pyListRemove obs_entry s.observations
            requests := s.requests ++
              [("DELETE", cancelObservePath client object_instance resource_id)] }) ∧
      ((∀ o ∈ pyListRemove obs_entry s.observations,
          o.client.endpoint ≠ obs_entry.client.endpoint) →
        LeshanClient.cancel_observe s client object_instance resource_id =
          { observations := pyListRemove obs_entry s.observations
            task_endpoints := dictPop s.task_endpoints obs_entry.client.endpoint
            stop_event_endpoints :=
              dictPop s.stop_event_endpoints obs_entry.client.endpoint
            stop_flags_set := s.stop_flags_set ++ [obs_entry.client.endpoint]
            tasks_cancelled := s.tasks_cancelled ++ [obs_entry.client.endpoint]
            requests := s.requests ++
              [("DELETE", cancelObservePath client object_instance resource_id)] }) := by
  refine ⟨fun hnone => ?_, fun obs_entry hf => ⟨fun hex => ?_, fun hall => ?_⟩⟩
  · refine cancel_observe_noop s client object_instance resource_id ?_
    rw [List.find?_eq_none]
    intro o ho
    simp [hnone o ho]
  · refine cancel_observe_nonlast s client object_instance resource_id obs_entry hf ?_
    obtain ⟨o, ho, hoe⟩ := hex
    exact List.any_eq_true.2 ⟨o, ho, by simp [hoe]⟩
  · refine cancel_observe_last s client object_instance resource_id obs_entry hf ?_
    rw [Bool.eq_false_iff]
    intro hany
    obtain ⟨o, ho, hoe⟩ := List.any_eq_true.1 hany
    exact hall o ho (by simpa using hoe)

/-- C8 witness: with resources 5 and 6 observed on endpoint "epA",
canceling an unregistered resource 7 changes nothing; canceling resource 6
removes only that entry, the listener task remaining; canceling resource 5
afterwards stops and discards the listener. -/
theorem cancel_observe_case_semantics_witness :
    LeshanClient.cancel_observe exampleRegistryState exampleClientA exampleInstance30 7 =
      exampleRegistryState ∧
    (LeshanClient.cancel_observe exampleRegistryState exampleClientA
        exampleInstance30 6).observations = [exampleObs5] ∧
    (LeshanClient.cancel_observe exampleRegistryState exampleClientA
        exampleInstance30 6).task_endpoints = ["epA"] ∧
    (LeshanClient.cancel_observe
        (LeshanClient.cancel_observe exampleRegistryState exampleClientA
          exampleInstance30 6)
        exampleClientA exampleInstance30 5).task_endpoints = [] ∧
    (LeshanClient.cancel_observe
        (LeshanClient.cancel_observe exampleRegistryState exampleClientA
          exampleInstance30 6)
        exampleClientA exampleInstance30 5).stop_flags_set = ["epA"] ∧
    (LeshanClient.cancel_observe
        (LeshanClient.cancel_observe exampleRegistryState exampleClientA
          exampleInstance30 6)
        exampleClientA exampleInstance30 5).tasks_cancelled = ["epA"] := by
  have h1 := (cancel_observe_case_semantics exampleRegistryState exampleClientA
    exampleInstance30 7).1 (by decide)
  have h2 := ((cancel_observe_case_semantics exampleRegistryState exampleClientA
    exampleInstance30 6).2 exampleObs6 (by decide)).1 ⟨exampleObs5, by decide, by decide⟩
  have h3 := ((cancel_observe_case_semantics
    (LeshanClient.cancel_observe exampleRegistryState exampleClientA exampleInstance30 6)
    exampleClientA exampleInstance30 5).2 exampleObs5 (by rw [h2]; decide)).2
    (by rw [h2]; decide)
  refine ⟨h1, ?_, ?_, ?_, ?_, ?_⟩ <;> rw [h2] <;> try rw [h3]
  all_goals decide

/-- When every declared read of an entry succeeds, the per-entry loop
produces one poll result per instance, in order. -/
theorem pollInstances_ok
    (read : Lwm2mClient → Lwm2mObjectInstance → Except PyExc (List Lwm2mResourceValue))
    (c : Lwm2mClient)
    (vals : Lwm2mClient → Lwm2mObjectInstance → List Lwm2mResourceValue)
    (l : List Lwm2mObjectInstance) (h : ∀ i ∈ l, read c i = .ok (vals c i)) :
    pollInstances read c l = .ok (l.map fun i => ⟨c, i, vals c i⟩) := by
  induction l with
  | nil => rfl
  | cons i rest ih =>
    simp only [pollInstances, h i (List.mem_cons_self _ _),
      ih fun j hj => h j (List.mem_cons_of_mem _ hj), Bind.bind, Except.bind, List.map_cons]

/-- A failing read of some declared instance makes the per-entry loop fail. -/
theorem pollInstances_error
    (read : Lwm2mClient → Lwm2mObjectInstance → Except PyExc (List Lwm2mResourceValue))
    (c : Lwm2mClient) (l : List Lwm2mObjectInstance) (i : Lwm2mObjectInstance)
    (hi : i ∈ l) (e : PyExc) (he : read c i = .error e) :
    ∃ e2, pollInstances read c l = .error e2 := by
  induction l with
  | nil => cases hi
  | cons j rest ih =>
    rcases List.mem_cons.1 hi with rfl | hi'
    · exact ⟨e, by simp only [pollInstances, he, Bind.bind, Except.bind]⟩
    · cases hj : read c j with
      | error e3 => exact ⟨e3, by simp only [pollInstances, hj, Bind.bind, Except.bind]⟩
      | ok v =>
        obtain ⟨e2, h2⟩ := ih hi'
        exact ⟨e2, by simp only [pollInstances, hj, h2, Bind.bind, Except.bind]⟩

/-- When every declared read succeeds, the poll loop produces one result
per declared (client, instance) pair, in declaration order. -/
theorem pollEntries_ok
    (read : Lwm2mClient → Lwm2mObjectInstance → Except PyExc (List Lwm2mResourceValue))
    (vals : Lwm2mClient → Lwm2mObjectInstance → List Lwm2mResourceValue)
    (pl : List LeshanLwm2mCoordinatorPollListEntry)
    (h : ∀ entry ∈ pl, ∀ i ∈ entry.instances, read entry.client i = .ok (vals entry.client i)) :
    pollEntries read pl = .ok (pl.flatMap fun entry =>
      entry.instances.map fun i => ⟨entry.client, i, vals entry.client i⟩) := by
  induction pl with
  | nil => rfl
  | cons entry rest ih =>
    simp only [pollEntries,
      pollInstances_ok read entry.client vals entry.instances
        (h entry (List.mem_cons_self _ _)),
      ih fun entry2 h2 => h entry2 (List.mem_cons_of_mem _ h2),
      Bind.bind, Except.bind, List.flatMap_cons]

/-- A failing read of any declared (client, instance) pair makes the poll
loop fail. -/
theorem pollEntries_error
    (read : Lwm2mClient → Lwm2mObjectInstance → Except PyExc (List Lwm2mResourceValue))
    (pl : List LeshanLwm2mCoordinatorPollListEntry)
    (entry : LeshanLwm2mCoordinatorPollListEntry) (hentry : entry ∈ pl)
    (i : Lwm2mObjectInstance) (hi : i ∈ entry.instances) (e : PyExc)
    (he : read entry.client i = .error e) :
    ∃ e2, pollEntries read pl = .error e2 := by
  induction pl with
  | nil => cases hentry
  | cons entry0 rest ih =>
    rcases List.mem_cons.1 hentry with rfl | h'
    · obtain ⟨e2, h2⟩ := pollInstances_error read entry.client entry.instances i hi e he
      exact ⟨e2, by simp only [pollEntries, h2, Bind.bind, Except.bind]⟩
    · cases h0 : pollInstances read entry0.client entry0.instances with
      | error e3 => exact ⟨e3, by simp only [pollEntries, h0, Bind.bind, Except.bind]⟩
      | ok v =>
        obtain ⟨e2, h2⟩ := ih h'
        exact ⟨e2, by simp only [pollEntries, h0, h2, Bind.bind, Except.bind]⟩

/-- C4: a poll cycle is atomic — if the directory refresh fails, or any
declared read fails, `async_update_data` raises exactly one `UpdateFailed`
to its caller, the host coordinator keeps the previous snapshot, and the
partial results of the failed cycle are discarded (the raised value carries
no data); only a fully successful cycle produces a new snapshot holding
the fetched clients and one poll result per declared (client, instance)
pair, which then replaces the previous one. -/
theorem poll_cycle_atomicity
    (get_clients_result : Except PyExc (List Lwm2mClient))
    (read : Lwm2mClient → Lwm2mObjectInstance → Except PyExc (List Lwm2mResourceValue))
    (poll_list : List LeshanLwm2mCoordinatorPollListEntry)
    (prev : LeshanLwm2mCoordinatorData) :
    (∀ e, get_clients_result = .error e →
      ∃ msg, LeshanLwm2mCoordinator.async_update_data get_clients_result read poll_list
          = .error (.updateFailed msg) ∧
        coordinatorStep prev
          (LeshanLwm2mCoordinator.async_update_data get_clients_result read poll_list)
          = prev) ∧
    (∀ entry ∈ poll_list, ∀ i ∈ entry.instances, ∀ e, read entry.client i = .error e →
      ∃ msg, LeshanLwm2mCoordinator.async_update_data get_clients_result read poll_list
          = .error (.updateFailed msg) ∧
        coordinatorStep prev
          (LeshanLwm2mCoordinator.async_update_data get_clients_result read poll_list)
          = prev) ∧
    ∀ (clients : List Lwm2mClient)
      (vals : Lwm2mClient → Lwm2mObjectInstance → List Lwm2mResourceValue),
      get_clients_result = .ok clients →
      (∀ entry ∈ poll_list, ∀ i ∈ entry.instances,
        read entry.client i = .ok (vals entry.client i)) →
      LeshanLwm2mCoordinator.async_update_data get_clients_result read poll_list
          = .ok ⟨clients, poll_list.flatMap fun entry =>
              entry.instances.map fun i => ⟨entry.client, i, vals entry.client i⟩⟩ ∧
        coordinatorStep prev
          (LeshanLwm2mCoordinator.async_update_data get_clients_result read poll_list)
          = ⟨clients, poll_list.flatMap fun entry =>
              entry.instances.map fun i => ⟨entry.client, i, vals entry.client i⟩⟩ := by
  refine ⟨fun e he => ?_, fun entry hentry i hi e he => ?_, fun clients vals hc hr => ?_⟩
  · refine ⟨"Error fetching data: " ++ pyExcStr e, ?_⟩
    have : LeshanLwm2mCoordinator.async_update_data get_clients_result read poll_list
        = .error (.updateFailed ("Error fetching data: " ++ pyExcStr e)) := by
      simp only [LeshanLwm2mCoordinator.async_update_data, he, Bind.bind, Except.bind]
    rw [this]
    exact ⟨rfl, rfl⟩
  · cases hc : get_clients_result with
    | error e3 =>
      refine ⟨"Error fetching data: " ++ pyExcStr e3, ?_⟩
      have : LeshanLwm2mCoordinator.async_update_data get_clients_result read poll_list
          = .error (.updateFailed ("Error fetching data: " ++ pyExcStr e3)) := by
        simp only [LeshanLwm2mCoordinator.async_update_data, hc, Bind.bind, Except.bind]
      rw [hc] at this
      rw [this]
      exact ⟨rfl, rfl⟩
    | ok clients =>
      obtain ⟨e2, h2⟩ := pollEntries_error read poll_list entry hentry i hi e he
      refine ⟨"Error fetching data: " ++ pyExcStr e2, ?_⟩
      have : LeshanLwm2mCoordinator.async_update_data get_clients_result read poll_list
          = .error (.updateFailed ("Error fetching data: " ++ pyExcStr e2)) := by
        simp only [LeshanLwm2mCoordinator.async_update_data, hc, h2, Bind.bind, Except.bind]
      rw [hc] at this
      rw [this]
      exact ⟨rfl, rfl⟩
  · have : LeshanLwm2mCoordinator.async_update_data get_clients_result read poll_list
        = .ok ⟨clients, poll_list.flatMap fun entry =>
            entry.instances.map fun i => ⟨entry.client, i, vals entry.client i⟩⟩ := by
      simp only [LeshanLwm2mCoordinator.async_update_data, hc,
        pollEntries_ok read vals poll_list hr, Bind.bind, Except.bind]
    rw [this]
    exact ⟨rfl, rfl⟩

/-- C4 witness: a two-instance poll list where the read of the second
instance fails keeps the previous snapshot and raises `UpdateFailed`; the
same cycle with both reads succeeding replaces the snapshot. -/
theorem poll_cycle_atomicity_witness :
    (∃ msg, LeshanLwm2mCoordinator.async_update_data (.ok [exampleClientA])
        (fun _ i => if i.object_id == 4 then .error .leshanClientError else .ok [])
        [⟨exampleClientA, [⟨3, 0⟩, ⟨4, 0⟩]⟩]
        = .error (.updateFailed msg) ∧
      coordinatorStep ⟨[], []⟩
        (LeshanLwm2mCoordinator.async_update_data (.ok [exampleClientA])
          (fun _ i => if i.object_id == 4 then .error .leshanClientError else .ok [])
          [⟨exampleClientA, [⟨3, 0⟩, ⟨4, 0⟩]⟩])
        = ⟨[], []⟩) ∧
    LeshanLwm2mCoordinator.async_update_data (.ok [exampleClientA])
        (fun _ _ => .ok [])
        [⟨exampleClientA, [⟨3, 0⟩, ⟨4, 0⟩]⟩]
      = .ok ⟨[exampleClientA],
          [⟨exampleClientA, ⟨3, 0⟩, []⟩, ⟨exampleClientA, ⟨4, 0⟩, []⟩]⟩ := by
  constructor
  · exact (poll_cycle_atomicity (.ok [exampleClientA])
      (fun _ i => if i.object_id == 4 then .error .leshanClientError else .ok [])
      [⟨exampleClientA, [⟨3, 0⟩, ⟨4, 0⟩]⟩] ⟨[], []⟩).2.1
      ⟨exampleClientA, [⟨3, 0⟩, ⟨4, 0⟩]⟩ (by simp) ⟨4, 0⟩ (by simp)
      .leshanClientError (by rfl)
  · have h := ((poll_cycle_atomicity (.ok [exampleClientA]) (fun _ _ => .ok [])
      [⟨exampleClientA, [⟨3, 0⟩, ⟨4, 0⟩]⟩] ⟨[], []⟩).2.2 [exampleClientA]
      (fun _ _ => []) rfl (fun entry _ i _ => rfl)).1
    simpa using h
